import Mathlib

/-!
Verification of the CAN echo example (`src/examples/Echo/Echo/main.c`,
jgui/avr-can-lib): the acceptance-filter configuration table, the
identifier policy (`msg.id += 10`) and the receive–transform–retransmit
polling loop.

The driver calls (`can_check_message`, `can_get_message`,
`can_send_message`) are external collaborators; their responses are
modelled as oracle inputs to each loop cycle, and transmissions are
recorded as events.
-/

namespace AvrCanEcho

/-- Machine width of the `id` field of `can_t` (`uint32_t` in `can.h`). -/
def U32 : Nat := 2 ^ 32

/-- Modelled from the spec: the struct `can_t` is declared in `can.h`,
which is not part of the sources here; its fields are exactly those used
by `main.c` and named by the spec's Frame data model: `id` (uint32_t
identifier), `flags.rtr` (remote request), `flags.extended` (29-bit id
flag), `length` (payload byte count) and `data` (payload bytes). -/
structure can_t where
  id : Nat
  rtr : Bool
  extended : Bool
  length : Nat
  data : List Nat
deriving DecidableEq, Repr

/-- The fixed identifier offset: `msg.id += 10` in `main.c` line 232. -/
def OFFSET : Nat := 10

/-- Lines 231–235 of `main.c`: the retrieved message is re-sent with
`msg.id += 10`; every other field is left untouched. `uint32_t`
addition wraps at `2 ^ 32`. -/
def echoTransform (m : can_t) : can_t :=
  { m with id := (m.id + OFFSET) % U32 }

/-- An observable effect of the program: one call to `can_send_message`. -/
inductive Event where
  | transmit (m : can_t)
deriving DecidableEq, Repr

/-- One iteration of the `while (1)` loop (lines 221–238 of `main.c`):
if `can_check_message()` reports a pending frame and `can_get_message`
succeeds with frame `m`, the loop transmits `echoTransform m`;
otherwise the iteration has no effect.  `pending` is the oracle answer
of `can_check_message()`, `recv` the oracle outcome of
`can_get_message` (`none` = the read failed). -/
def loopCycle (pending : Bool) (recv : Option can_t) : List Event :=
  if pending then
    match recv with
    | some m => [Event.transmit (echoTransform m)]
    | none => []
  else []

/-- The seed frame built at lines 204–211 of `main.c`. -/
def seedMsg : can_t :=
  { id := 0x123456, rtr := false, extended := true, length := 4,
    data := [0xDE, 0xAD, 0xBE, 0xEF] }

/-- The transmissions performed before the `while (1)` loop starts:
exactly the one `can_send_message(&msg)` at line 214. -/
def bootEvents : List Event := [Event.transmit seedMsg]

/-- The environment seen by the loop: for each cycle index, the answer
of `can_check_message()` and the outcome of `can_get_message`. -/
def Env : Type := Nat → Bool × Option can_t

/-- All transmissions after boot and the first `n` polling cycles. -/
def trace (env : Env) (n : Nat) : List Event :=
  bootEvents ++ (List.range n).flatMap (fun i => loopCycle (env i).1 (env i).2)

/-- Control-flow states of `main`: before the seed transmit, after it,
inside the `while (1)` loop, and the unreachable `return 0`. -/
inductive MainState where
  | boot
  | seedSent
  | polling
  | halted
deriving DecidableEq, Repr

/-- One control-flow step of `main`: boot sends the seed frame, then
the program enters the `while (1)` loop; the loop body always falls
through back to the loop head, so `polling` steps to `polling`
whatever the oracle answers, and nothing ever steps to `halted`. -/
def mainStep (s : MainState) (_pending : Bool) (_recv : Option can_t) : MainState :=
  match s with
  | .boot => .seedSent
  | .seedSent => .polling
  | .polling => .polling
  | .halted => .halted

/-- The control-flow state after `n` steps under environment `env`. -/
def mainRun (env : Env) : Nat → MainState
  | 0 => .boot
  | n + 1 => mainStep (mainRun env n) (env n).1 (env n).2

/-! ## Acceptance filtering

Modelled from the spec: the acceptance logic itself lives in the
MCP2515 hardware and the driver (`can.h` / `mcp2515.h`, not among the
sources); `main.c` quotes the datasheet truth table at lines 104–113
(mask bit 0 ⇒ accept the bit; mask bit 1 ⇒ accept iff filter bit =
identifier bit) and documents the grouping: filters 0–1 share mask 0,
filters 2–5 share mask 1, a frame is received iff some group accepts
it. -/

/-- One bit of the MCP2515 filter truth table (`main.c` lines 104–113):
bit `n` is accepted iff the mask bit is 0, or the filter bit equals
the identifier bit. -/
def bitAccept (mask filt ident : Nat) (n : Nat) : Bool :=
  !(mask.testBit n) || (filt.testBit n == ident.testBit n)

/-- A single filter accepts an identifier iff every one of the
`width` identifier bits is accepted by the truth table. -/
def filterAccepts (width mask filt ident : Nat) : Bool :=
  (List.range width).all (fun n => bitAccept mask filt ident n)

/-- A group (several filters sharing one mask) accepts an identifier
iff at least one of its filters accepts it. -/
def groupAccepts (width mask : Nat) (filts : List Nat) (ident : Nat) : Bool :=
  filts.any (fun f => filterAccepts width mask f ident)

/-- Standard (11-bit) identifier width. -/
def stdWidth : Nat := 11

/-- Modelled from the spec: `MCP2515_FILTER` / `MCP2515_FILTER_EXTENDED`
are macros of `mcp2515.h` (not among the sources) packing an identifier
into the hardware filter bytes; per the doc comment of `main.c` lines
42–77 the former declares a standard (11-bit) entry, the latter an
extended (29-bit) one.  Only the width tag and the raw identifier
matter at this abstraction level. -/
structure FilterEntry where
  ext : Bool
  value : Nat
deriving DecidableEq, Repr

/-- `MCP2515_FILTER(id)`: a standard-width table entry. -/
def MCP2515_FILTER (id : Nat) : FilterEntry := ⟨false, id⟩

/-- `MCP2515_FILTER_EXTENDED(id)`: an extended-width table entry. -/
def MCP2515_FILTER_EXTENDED (id : Nat) : FilterEntry := ⟨true, id⟩

/-- The filter table of `main.c` lines 117–130: filters 0–5 followed by
mask 0 (group 0) and mask 1 (group 1). -/
def can_filter : List FilterEntry :=
  [ MCP2515_FILTER 0x000,
    MCP2515_FILTER 0x000,
    MCP2515_FILTER 0x0FF,
    MCP2515_FILTER 0x0FF,
    MCP2515_FILTER 0x0FF,
    MCP2515_FILTER 0x0FF,
    MCP2515_FILTER 0x7F3,
    MCP2515_FILTER 0x7FF ]

/-- Group 0 of the reference table: filters 0x000, 0x000, mask 0x7F3. -/
def group0Accepts (ident : Nat) : Bool :=
  groupAccepts stdWidth 0x7F3 [0x000, 0x000] ident

/-- Group 1 of the reference table: four filters 0x0FF, mask 0x7FF. -/
def group1Accepts (ident : Nat) : Bool :=
  groupAccepts stdWidth 0x7FF [0x0FF, 0x0FF, 0x0FF, 0x0FF] ident

/-- A standard identifier passes the reference table iff some group
accepts it. -/
def tableAccepts (ident : Nat) : Bool :=
  group0Accepts ident || group1Accepts ident

/-! ## Claims -/

/-- C1: every frame successfully retrieved by the polling loop is
re-transmitted with identifier equal to the incoming identifier plus
OFFSET = 10 (at the field's machine width), and equal to the incoming
frame in every other respect. -/
theorem c1_identifier_transform (m : can_t) :
    ∃ t, loopCycle true (some m) = [Event.transmit t] ∧
      t.id = (m.id + OFFSET) % U32 ∧ t.rtr = m.rtr ∧ t.extended = m.extended ∧
      t.length = m.length ∧ t.data = m.data :=
  ⟨echoTransform m, rfl, rfl, rfl, rfl, rfl, rfl⟩

/-- C2: any frame the loop transmits after retrieving `m` has
`is_extended`, `is_remote_request`, payload length and payload bytes
identical to `m`; only the identifier changes. -/
theorem c2_field_preservation (m t : can_t)
    (h : Event.transmit t ∈ loopCycle true (some m)) :
    t.extended = m.extended ∧ t.rtr = m.rtr ∧ t.length = m.length ∧
    t.data = m.data ∧ t.id = (m.id + OFFSET) % U32 := by
  simp only [loopCycle, if_pos, List.mem_singleton, Event.transmit.injEq] at h
  subst h
  exact ⟨rfl, rfl, rfl, rfl, rfl⟩

/-- Witness for C2 at the concrete seed frame. -/
theorem c2_field_preservation_witness :
    (echoTransform seedMsg).extended = seedMsg.extended ∧
    (echoTransform seedMsg).rtr = seedMsg.rtr ∧
    (echoTransform seedMsg).length = seedMsg.length ∧
    (echoTransform seedMsg).data = seedMsg.data ∧
    (echoTransform seedMsg).id = (seedMsg.id + OFFSET) % U32 :=
  c2_field_preservation seedMsg (echoTransform seedMsg) (by decide)

/-- Characterisation of `groupAccepts` shared by the acceptance-rule
and reference-table theorems: a group accepts `ident` iff some filter
of the group agrees with `ident` on every mask-checked bit position. -/
lemma groupAccepts_iff (width mask ident : Nat) (filts : List Nat) :
    groupAccepts width mask filts ident = true ↔
      ∃ f ∈ filts, ∀ n < width, mask.testBit n = true →
        ident.testBit n = f.testBit n := by
  simp only [groupAccepts, List.any_eq_true, filterAccepts, List.all_eq_true,
    List.mem_range, bitAccept, Bool.or_eq_true, Bool.not_eq_true', beq_iff_eq]
  constructor
  · rintro ⟨f, hf, h⟩
    refine ⟨f, hf, fun n hn hm => ?_⟩
    rcases h n hn with h0 | h1
    · rw [hm] at h0
      exact absurd h0 (by simp)
    · exact h1.symm
  · rintro ⟨f, hf, h⟩
    refine ⟨f, hf, fun n hn => ?_⟩
    by_cases hm : mask.testBit n
    · exact Or.inr (h n hn hm).symm
    · exact Or.inl (by simpa using hm)

/-- C3: a group accepts identifier `ident` iff some filter of the group
agrees with `ident` on every bit position where the mask bit is 1; a
group whose mask is all zeros accepts every identifier of the matching
width; and an identifier passes the reference table iff some group
accepts it. -/
theorem c3_acceptance_rule (width mask ident : Nat) (filts : List Nat) :
    (groupAccepts width mask filts ident = true ↔
      ∃ f ∈ filts, ∀ n < width, mask.testBit n = true →
        ident.testBit n = f.testBit n) ∧
    (mask = 0 → filts ≠ [] → groupAccepts width mask filts ident = true) ∧
    (tableAccepts ident = true ↔
      group0Accepts ident = true ∨ group1Accepts ident = true) := by
  refine ⟨groupAccepts_iff width mask ident filts, ?_, ?_⟩
  · intro hm hne
    subst hm
    match filts, hne with
    | f :: fs, _ =>
      simp only [groupAccepts, List.any_eq_true]
      refine ⟨f, List.mem_cons_self f fs, ?_⟩
      simp [filterAccepts, bitAccept, Nat.zero_testBit]
  · simp [tableAccepts]

/-- Witness for C3: the all-zero mask of an (all-accept) group accepts
the concrete identifier 0x005. -/
theorem c3_acceptance_rule_witness :
    groupAccepts 11 0 [0x000, 0x000] 0x005 = true :=
  (c3_acceptance_rule 11 0 0x005 [0x000, 0x000]).2.1 rfl (by decide)

/-- A bit reads as 0 iff the corresponding binary digit is 0. -/
lemma testBit_false_arith (i n : Nat) :
    Nat.testBit i n = false ↔ i / 2 ^ n % 2 = 0 := by
  rw [Nat.testBit_to_div_mod, decide_eq_false_iff_not]
  generalize i / 2 ^ n = t
  omega

/-- A bit reads as 1 iff the corresponding binary digit is 1. -/
lemma testBit_true_arith (i n : Nat) :
    Nat.testBit i n = true ↔ i / 2 ^ n % 2 = 1 := by
  simp [Nat.testBit_to_div_mod]

/-- The bits of mask 0x7F3 that are set within the standard width. -/
lemma mask0_true_bits :
    ∀ n < 11, Nat.testBit 0x7F3 n = true →
      (n = 0 ∨ n = 1 ∨ n = 4 ∨ n = 5 ∨ n = 6 ∨ n = 7 ∨ n = 8 ∨ n = 9 ∨ n = 10) := by
  decide

/-- Group 0 acceptance spelled out as binary-digit conditions. -/
lemma group0_arith (i : Nat) :
    group0Accepts i = true ↔
      (i / 1 % 2 = 0 ∧ i / 2 % 2 = 0 ∧ i / 16 % 2 = 0 ∧
       i / 32 % 2 = 0 ∧ i / 64 % 2 = 0 ∧ i / 128 % 2 = 0 ∧
       i / 256 % 2 = 0 ∧ i / 512 % 2 = 0 ∧ i / 1024 % 2 = 0) := by
  rw [show group0Accepts i = groupAccepts 11 0x7F3 [0x000, 0x000] i from rfl,
    groupAccepts_iff]
  constructor
  · rintro ⟨f, hf, h⟩
    have hf0 : f = 0 := by
      simp only [List.mem_cons, List.not_mem_nil, or_false] at hf
      rcases hf with rfl | rfl <;> rfl
    subst hf0
    have g : ∀ n, n < 11 → Nat.testBit 0x7F3 n = true → Nat.testBit i n = false := by
      intro n hn hm
      rw [h n hn hm]
      exact Nat.zero_testBit n
    exact ⟨(testBit_false_arith i 0).1 (g 0 (by norm_num) (by decide)),
           (testBit_false_arith i 1).1 (g 1 (by norm_num) (by decide)),
           (testBit_false_arith i 4).1 (g 4 (by norm_num) (by decide)),
           (testBit_false_arith i 5).1 (g 5 (by norm_num) (by decide)),
           (testBit_false_arith i 6).1 (g 6 (by norm_num) (by decide)),
           (testBit_false_arith i 7).1 (g 7 (by norm_num) (by decide)),
           (testBit_false_arith i 8).1 (g 8 (by norm_num) (by decide)),
           (testBit_false_arith i 9).1 (g 9 (by norm_num) (by decide)),
           (testBit_false_arith i 10).1 (g 10 (by norm_num) (by decide))⟩
  · rintro ⟨h0, h1, h4, h5, h6, h7, h8, h9, h10⟩
    refine ⟨0, by simp, fun n hn hm => ?_⟩
    rw [Nat.zero_testBit]
    rcases mask0_true_bits n hn hm with rfl | rfl | rfl | rfl | rfl | rfl | rfl | rfl | rfl
    · exact (testBit_false_arith i 0).2 h0
    · exact (testBit_false_arith i 1).2 h1
    · exact (testBit_false_arith i 4).2 h4
    · exact (testBit_false_arith i 5).2 h5
    · exact (testBit_false_arith i 6).2 h6
    · exact (testBit_false_arith i 7).2 h7
    · exact (testBit_false_arith i 8).2 h8
    · exact (testBit_false_arith i 9).2 h9
    · exact (testBit_false_arith i 10).2 h10

/-- Group 1 acceptance spelled out as binary-digit conditions. -/
lemma group1_arith (i : Nat) :
    group1Accepts i = true ↔
      (i / 1 % 2 = 1 ∧ i / 2 % 2 = 1 ∧ i / 4 % 2 = 1 ∧
       i / 8 % 2 = 1 ∧ i / 16 % 2 = 1 ∧ i / 32 % 2 = 1 ∧
       i / 64 % 2 = 1 ∧ i / 128 % 2 = 1 ∧ i / 256 % 2 = 0 ∧
       i / 512 % 2 = 0 ∧ i / 1024 % 2 = 0) := by
  rw [show group1Accepts i
        = groupAccepts 11 0x7FF [0x0FF, 0x0FF, 0x0FF, 0x0FF] i from rfl,
    groupAccepts_iff]
  constructor
  · rintro ⟨f, hf, h⟩
    have hf0 : f = 0xFF := by
      simp only [List.mem_cons, List.not_mem_nil, or_false] at hf
      rcases hf with rfl | rfl | rfl | rfl <;> rfl
    subst hf0
    exact ⟨(testBit_true_arith i 0).1 ((h 0 (by norm_num) (by decide)).trans (by decide)),
           (testBit_true_arith i 1).1 ((h 1 (by norm_num) (by decide)).trans (by decide)),
           (testBit_true_arith i 2).1 ((h 2 (by norm_num) (by decide)).trans (by decide)),
           (testBit_true_arith i 3).1 ((h 3 (by norm_num) (by decide)).trans (by decide)),
           (testBit_true_arith i 4).1 ((h 4 (by norm_num) (by decide)).trans (by decide)),
           (testBit_true_arith i 5).1 ((h 5 (by norm_num) (by decide)).trans (by decide)),
           (testBit_true_arith i 6).1 ((h 6 (by norm_num) (by decide)).trans (by decide)),
           (testBit_true_arith i 7).1 ((h 7 (by norm_num) (by decide)).trans (by decide)),
           (testBit_false_arith i 8).1 ((h 8 (by norm_num) (by decide)).trans (by decide)),
           (testBit_false_arith i 9).1 ((h 9 (by norm_num) (by decide)).trans (by decide)),
           (testBit_false_arith i 10).1 ((h 10 (by norm_num) (by decide)).trans (by decide))⟩
  · rintro ⟨h0, h1, h2, h3, h4, h5, h6, h7, h8, h9, h10⟩
    refine ⟨0xFF, by simp, fun n hn _ => ?_⟩
    have hmem : n = 0 ∨ n = 1 ∨ n = 2 ∨ n = 3 ∨ n = 4 ∨ n = 5 ∨ n = 6 ∨ n = 7 ∨
        n = 8 ∨ n = 9 ∨ n = 10 := by omega
    rcases hmem with rfl | rfl | rfl | rfl | rfl | rfl | rfl | rfl | rfl | rfl | rfl
    · exact ((testBit_true_arith i 0).2 h0).trans (by decide)
    · exact ((testBit_true_arith i 1).2 h1).trans (by decide)
    · exact ((testBit_true_arith i 2).2 h2).trans (by decide)
    · exact ((testBit_true_arith i 3).2 h3).trans (by decide)
    · exact ((testBit_true_arith i 4).2 h4).trans (by decide)
    · exact ((testBit_true_arith i 5).2 h5).trans (by decide)
    · exact ((testBit_true_arith i 6).2 h6).trans (by decide)
    · exact ((testBit_true_arith i 7).2 h7).trans (by decide)
    · exact ((testBit_false_arith i 8).2 h8).trans (by decide)
    · exact ((testBit_false_arith i 9).2 h9).trans (by decide)
    · exact ((testBit_false_arith i 10).2 h10).trans (by decide)

set_option maxHeartbeats 1600000 in
/-- C4: under the acceptance rule, the reference table makes Group 0
accept exactly the standard identifiers 0x000, 0x004, 0x008 and 0x00C,
its mask 0x7F3 wildcards exactly bits 2 and 3 (the two bits that vary
across that set), and Group 1 accepts exactly the standard identifier
0x0FF. -/
theorem c4_reference_table :
    (∀ i < 2048, (group0Accepts i = true ↔
      (i = 0x000 ∨ i = 0x004 ∨ i = 0x008 ∨ i = 0x00C))) ∧
    (∀ n < 11, (Nat.testBit 0x7F3 n = false ↔ (n = 2 ∨ n = 3))) ∧
    (∀ i < 2048, (group1Accepts i = true ↔ i = 0x0FF)) := by
  refine ⟨fun i hi => ?_, by decide, fun i hi => ?_⟩
  · rw [group0_arith]
    omega
  · rw [group1_arith]
    omega

/-- Witness for C4 at the concrete identifiers 0x004, bit 2, and 0x0FF. -/
theorem c4_reference_table_witness :
    (group0Accepts 0x004 = true ↔
      ((0x004 : Nat) = 0x000 ∨ (0x004 : Nat) = 0x004 ∨
       (0x004 : Nat) = 0x008 ∨ (0x004 : Nat) = 0x00C)) ∧
    (Nat.testBit 0x7F3 2 = false ↔ ((2 : Nat) = 2 ∨ (2 : Nat) = 3)) ∧
    (group1Accepts 0x0FF = true ↔ (0x0FF : Nat) = 0x0FF) :=
  ⟨c4_reference_table.1 0x004 (by norm_num),
   c4_reference_table.2.1 2 (by norm_num),
   c4_reference_table.2.2 0x0FF (by norm_num)⟩

/-- C5: at boot, exactly one transmit happens before the first poll:
the seed frame with identifier 0x123456, extended, not a remote
request, carrying the 4-byte payload DE AD BE EF. -/
theorem c5_seed_frame (env : Env) :
    trace env 0 = [Event.transmit seedMsg] ∧
    seedMsg.id = 0x123456 ∧ seedMsg.extended = true ∧ seedMsg.rtr = false ∧
    seedMsg.length = 4 ∧ seedMsg.data = [0xDE, 0xAD, 0xBE, 0xEF] :=
  ⟨by simp [trace, bootEvents], rfl, rfl, rfl, rfl, rfl⟩

/-- C6: a polling cycle transmits iff the pending check returned true
and the read succeeded; a false pending check or a failed read leaves
the cycle without any effect, and the loop is back at the poll on the
next cycle. -/
theorem c6_poll_gate (pending : Bool) (recv : Option can_t) :
    ((∃ t, Event.transmit t ∈ loopCycle pending recv) ↔
      (pending = true ∧ ∃ m, recv = some m)) ∧
    (pending = false → loopCycle pending recv = []) ∧
    (recv = none → loopCycle pending recv = []) ∧
    mainStep MainState.polling pending recv = MainState.polling := by
  refine ⟨?_, ?_, ?_, rfl⟩
  · cases pending <;> cases recv <;> simp [loopCycle]
  · intro h
    subst h
    simp [loopCycle]
  · intro h
    subst h
    cases pending <;> simp [loopCycle]

/-- Witness for C6: the idle cycle and the failed-read cycle both
produce no transmission. -/
theorem c6_poll_gate_witness :
    loopCycle false none = [] ∧ loopCycle true none = [] :=
  ⟨(c6_poll_gate false none).2.1 rfl, (c6_poll_gate true none).2.2.1 rfl⟩

/-- C7: the accepted incoming frame with standard identifier 0x004 and
payload 01 02 is echoed as the frame with identifier 0x00E and the
same flags and payload. -/
theorem c7_echo_scenario :
    tableAccepts 0x004 = true ∧
    loopCycle true
        (some { id := 0x004, rtr := false, extended := false,
                length := 2, data := [0x01, 0x02] })
      = [Event.transmit { id := 0x00E, rtr := false, extended := false,
                          length := 2, data := [0x01, 0x02] }] := by
  exact ⟨by decide, by decide⟩

/-- C8: the identifier policy is plain addition on the full machine
width of the `id` field: the outgoing identifier is the incoming one
plus 10 modulo 2^32 only, with no masking or clamping at the 11-bit or
29-bit identifier widths, so a sum exceeding the valid width is kept
as-is. -/
theorem c8_plain_addition (m : can_t) :
    (echoTransform m).id = (m.id + OFFSET) % U32 ∧
    (m.id + OFFSET < U32 → (echoTransform m).id = m.id + OFFSET) := by
  refine ⟨rfl, fun h => ?_⟩
  simp only [echoTransform]
  exact Nat.mod_eq_of_lt h

/-- Witness for C8: adding 10 to the largest standard identifier 0x7FF
gives 0x809, past the 11-bit range and transmitted unmasked. -/
theorem c8_plain_addition_witness :
    ((0x7FF : Nat) + OFFSET < U32) ∧
    (echoTransform { id := 0x7FF, rtr := false, extended := false,
                     length := 0, data := [] }).id = 0x7FF + OFFSET :=
  ⟨by decide,
   (c8_plain_addition { id := 0x7FF, rtr := false, extended := false,
                        length := 0, data := [] }).2 (by decide)⟩

/-- The `while (1)` loop keeps the program in the polling state from
step 2 onwards, whatever the environment does. -/
lemma mainRun_polling (env : Env) (k : Nat) :
    mainRun env (k + 2) = MainState.polling := by
  induction k with
  | zero => rfl
  | succ j ih =>
    show mainStep (mainRun env (j + 2)) (env (j + 2)).1 (env (j + 2)).2 = _
    rw [ih]
    rfl

/-- C9: after the seed frame the program enters the polling state and
never leaves it: from step 2 on the state is always `polling`, and no
run of any length under any environment reaches the `halted` state
(the `return 0` after the loop). -/
theorem c9_loops_forever (env : Env) (n : Nat) :
    (2 ≤ n → mainRun env n = MainState.polling) ∧
    mainRun env n ≠ MainState.halted := by
  match n with
  | 0 =>
    refine ⟨fun h => absurd h (by decide), fun h => ?_⟩
    simp only [mainRun] at h
    exact MainState.noConfusion h
  | 1 =>
    refine ⟨fun h => absurd h (by decide), fun h => ?_⟩
    simp only [mainRun, mainStep] at h
    exact MainState.noConfusion h
  | k + 2 =>
    refine ⟨fun _ => mainRun_polling env k, fun h => ?_⟩
    rw [mainRun_polling env k] at h
    exact MainState.noConfusion h

/-- Witness for C9 under the always-idle environment at step 3. -/
theorem c9_loops_forever_witness :
    ((2 ≤ 3) ∧ mainRun (fun _ => (false, none)) 3 = MainState.polling) ∧
    mainRun (fun _ => (false, none)) 3 ≠ MainState.halted :=
  ⟨⟨by decide, (c9_loops_forever (fun _ => (false, none)) 3).1 (by decide)⟩,
   (c9_loops_forever (fun _ => (false, none)) 3).2⟩

/-- C10: all eight entries of the installed table (six filters and the
two masks) are standard-width `MCP2515_FILTER` entries, while the one
frame the program itself originates, the seed frame, is extended. -/
theorem c10_standard_width_table :
    can_filter.length = 8 ∧
    (∀ e ∈ can_filter, e.ext = false) ∧
    seedMsg.extended = true := by
  decide

end AvrCanEcho
